import Mathlib

/-!
# Verification of the `slscale` / `msscale` record scaling pipeline

Shallow embedding of the two C entry points (`slscale.c`, the streaming
variant, and the batch variant `msscale`) that share one sample-scaling
transform.  Machine `double` arithmetic is modelled exactly over `ℚ`
(every value appearing in the verified scenarios is exactly representable
in binary64, so the model agrees with the C arithmetic there), with the C
`rint` modelled as round-half-to-even.  Machine `int` samples are modelled
as `ℤ` with an explicit wrap to 32-bit width where the code stores a value.
External library calls (`mst_initgroup`, `mst_packgroup`, `dl_write`,
`dl_connect`, `sl_collect`, `msr_unpack`) are modelled from the spec as
oracles/parameters, since their sources are outside this repository.
-/

/-- The fields of a parsed miniSEED record (`MSRecord` of libmseed) that the
program reads or writes: channel code (fixed-width char array, orientation
at index 2), start time, sample rate, sample count, sample type tag,
number of unpacked samples and the unpacked integer sample buffer. -/
structure MSRecord where
  channel : List Char
  starttime : ℤ
  samprate : ℚ
  samplecnt : ℤ
  sampletype : Char
  numsamples : ℤ
  datasamples : List ℤ
deriving DecidableEq

/-- C `rint` on an exact rational value: round to the nearest integer,
ties to even. -/
def rintQ (x : ℚ) : ℤ :=
  let f : ℤ := x.floor
  let r : ℚ := x - (f : ℚ)
  if r < 1/2 then f
  else if 1/2 < r then f + 1
  else if f % 2 = 0 then f else f + 1

/-- `Rat.floor` agrees with the `Int.floor` of the `FloorRing` structure. -/
lemma ratFloor_eq_intFloor (q : ℚ) : q.floor = ⌊q⌋ := by
  rw [Rat.floor_def, Rat.floor_def']

/-- Storing an integer into a C `int` (32-bit two's complement): wrap
modulo `2^32` into `[-2^31, 2^31)`. -/
def wrap32 (z : ℤ) : ℤ := (z + 2 ^ 31) % 2 ^ 32 - 2 ^ 31

/-- The per-sample map of line 167 of `slscale.c` (line 104 of the batch
variant): `(int) rint(alpha + beta * (double) v)`. -/
def scaleSample (alpha beta : ℚ) (v : ℤ) : ℤ :=
  wrap32 (rintQ (alpha + beta * (v : ℚ)))

/-- The scaling loop of `scale_record`:
`for (n = 0; n < numsamples; n++) buf[n] = (int) rint(alpha + beta * buf[n])`,
an in-place indexed update executed for `n = 0, …, num - 1`. -/
def scaleLoop (alpha beta : ℚ) (num : ℕ) (buf : List ℤ) : List ℤ :=
  (List.range num).foldl
    (fun b n => b.set n (scaleSample alpha beta (b.getD n 0))) buf

/-- Modelled from the spec: `mst_packgroup` re-encodes the trace's sample
buffer into output records bounded by the configured maximum record size,
with the pack-all-remaining-data flag set, so every sample is packed, in
order, split into consecutive chunks.  `chunk` is the number of samples
that fit one output record (at least 1). -/
def packChunks (chunk : ℕ) : List ℤ → List (List ℤ)
  | [] => []
  | v :: rest =>
    ((v :: rest).take (chunk + 1)) :: packChunks chunk ((v :: rest).drop (chunk + 1))
termination_by l => l.length
decreasing_by
  simp only [List.length_drop, List.length_cons]
  omega

/-- Modelled from the spec: the result of `mst_packgroup` — the emitted
output records (their sample payloads) and `psamples`, the number of
samples successfully packed. -/
def mst_packgroup (chunk : ℕ) (samples : List ℤ) : List (List ℤ) × ℤ :=
  (packChunks chunk samples, (samples.length : ℤ))

/-- Outcome of one `scale_record` call: the C return value, the record
after the in-place mutation, and the sample payloads of the output
records handed to `record_handler`. -/
structure ScaleOutcome where
  result : ℤ
  record : MSRecord
  emitted : List (List ℤ)
deriving DecidableEq

/-- `scale_record` of `slscale.c` lines 142–180 (identical in the batch
variant, lines 79–117): eligibility guards, orientation overwrite, the
scaling loop, then trace-group allocation (`allocOk` models whether
`mst_initgroup` succeeds) and repacking via `mst_packgroup`. -/
def scale_record (orient : Option Char) (alpha beta : ℚ) (allocOk : Bool)
    (chunk : ℕ) (msr : MSRecord) : ScaleOutcome :=
  -- need at least a sample
  if msr.samplecnt < 1 then ⟨0, msr, []⟩
  -- we need an integer value
  else if msr.sampletype ≠ 'i' then ⟨0, msr, []⟩
  -- problem with rate
  else if msr.samprate = 0 then ⟨0, msr, []⟩
  else
    -- convert to scaled values ...
    let msr1 := match orient with
      | some c => { msr with channel := msr.channel.set 2 c }
      | none => msr
    let msr2 := { msr1 with
      datasamples := scaleLoop alpha beta msr1.numsamples.toNat msr1.datasamples }
    if allocOk = false then ⟨-1, msr2, []⟩
    else
      let packed := mst_packgroup chunk msr2.datasamples
      ⟨packed.2, msr2, packed.1⟩

/-- The batch (`msscale`) main loop, lines 179–184: read records until
end of file, feeding each through `scale_record`; a negative result
breaks the loop.  Returns the concatenated emitted output records. -/
def batchRun (orient : Option Char) (alpha beta : ℚ) (allocOk : Bool)
    (chunk : ℕ) : List MSRecord → List (List ℤ)
  | [] => []
  | r :: rest =>
    let out := scale_record orient alpha beta allocOk chunk r
    if out.result < 0 then out.emitted
    else out.emitted ++ batchRun orient alpha beta allocOk chunk rest

/-- One raw packet delivered by `sl_collect`: its libslink packet class
(`isData` ↔ `sl_packettype == SLDATA`), whether `msr_unpack` succeeds on
it, and the record it unpacks to when it does. -/
structure SLPacket where
  isData : Bool
  unpackOk : Bool
  record : MSRecord
deriving DecidableEq

/-- The configuration of one streaming (`slscale`) run: checkpoint file
present, checkpoint flush interval (`stateint`), scaling parameters, and
the modelled allocation/packing oracles. -/
structure StreamCfg where
  statefile : Bool
  stateint : ℤ
  orient : Option Char
  alpha : ℚ
  beta : ℚ
  allocOk : Bool
  chunk : ℕ
deriving DecidableEq

/-- The mutable state of the streaming main loop: the `msr` record
pointer (`none` models NULL), the intermediate-state counter
`packetcnt`, the number of `sl_savestate` calls made during the loop so
far, and everything emitted so far. -/
structure LoopState where
  msr : Option MSRecord
  packetcnt : ℤ
  savesDuring : ℕ
  emitted : List (List ℤ)
deriving DecidableEq

/-- Result of one iteration of the streaming main loop: continue with a
new state, break out of the loop (`scale_record` returned a negative
value), or dereference a NULL record pointer inside `scale_record`. -/
inductive StepResult where
  | ok (st : LoopState)
  | brk (st : LoopState)
  | nullDeref (st : LoopState)
deriving DecidableEq

/-- Lines 371–377 of `slscale.c`: if a statefile is configured and the
interval is non-zero, pre-increment `packetcnt` and, when it reaches the
interval, save state and reset the counter.  Returns the new counter and
whether a save happened. -/
def checkpointStep (statefile : Bool) (stateint cnt : ℤ) : ℤ × Bool :=
  if statefile = true ∧ stateint ≠ 0 then
    if cnt + 1 ≥ stateint then (0, true) else (cnt + 1, false)
  else (cnt, false)

/-- One iteration of the `sl_collect` loop, lines 352–378: unpack (on
failure the record pointer keeps whatever value it had), for data packets
run `scale_record` on the pointed-to record (dereferencing NULL if the
pointer is NULL), break on a negative result (after `msr_free`), then
`msr_free` (which resets the pointer to NULL) and the checkpoint logic. -/
def loopBody (cfg : StreamCfg) (st : LoopState) (pkt : SLPacket) : StepResult :=
  let msr1 : Option MSRecord := if pkt.unpackOk then some pkt.record else st.msr
  if pkt.isData then
    match msr1 with
    | none => .nullDeref st
    | some m =>
      let out := scale_record cfg.orient cfg.alpha cfg.beta cfg.allocOk cfg.chunk m
      if out.result < 0 then
        .brk { st with msr := none, emitted := st.emitted ++ out.emitted }
      else
        let ck := checkpointStep cfg.statefile cfg.stateint st.packetcnt
        .ok { msr := none
              packetcnt := ck.1
              savesDuring := st.savesDuring + (if ck.2 then 1 else 0)
              emitted := st.emitted ++ out.emitted }
  else
    let ck := checkpointStep cfg.statefile cfg.stateint st.packetcnt
    .ok { st with
            msr := none, packetcnt := ck.1,
            savesDuring := st.savesDuring + (if ck.2 then 1 else 0) }

/-- How the streaming main loop ended: `sl_collect` ran out of packets,
the loop broke on a negative `scale_record` result, or the process
crashed on a NULL record dereference. -/
inductive RunEnd where
  | normal
  | broke
  | crashed
deriving DecidableEq

/-- The streaming main loop over a finite trace of collected packets. -/
def streamRun (cfg : StreamCfg) : LoopState → List SLPacket → LoopState × RunEnd
  | st, [] => (st, .normal)
  | st, pkt :: rest =>
    match loopBody cfg st pkt with
    | .ok st' => streamRun cfg st' rest
    | .brk st' => (st', .broke)
    | .nullDeref st' => (st', .crashed)

/-- The state the streaming main loop starts in (`msr = NULL`,
`packetcnt = 0`). -/
def initState : LoopState := ⟨none, 0, 0, []⟩

/-- Lines 384–385 of `slscale.c`: one more `sl_savestate` at shutdown,
exactly when a statefile is configured and the terminate flag is set. -/
def shutdownSaves (statefile terminate : Bool) : ℕ :=
  if statefile = true ∧ terminate = true then 1 else 0

/-- One round of the forwarding retry loop of `record_handler`
(lines 128–138): the result of the `dl_write` attempt at the loop head,
the result of the `dl_connect` attempt if one is made, and the value of
the terminate flag when it is checked at the bottom of the body. -/
structure RetryRound where
  writeOk : Bool
  connectOk : Bool
  terminate : Bool
deriving DecidableEq

/-- Observable actions of the forwarding retry loop. -/
inductive FwdEvent where
  | submit       -- dl_write succeeded: the record was forwarded
  | disconnect   -- dl_disconnect on an open link
  | connectOk    -- dl_connect succeeded
  | connectFail  -- dl_connect failed
  | sleep10      -- the fixed 10-second backoff sleep
deriving DecidableEq

/-- The forwarding retry loop of `record_handler`, lines 128–138:
`while (dl_write(...) < 0) { if connected, disconnect; if (dl_connect < 0)
sleep 10; if (terminate) break; }`.  `connected` models
`dlconn->link != -1`.  Returns `some true` when the record was forwarded,
`some false` when it was abandoned because the terminate flag was
observed, `none` when the oracle trace ran out; paired with the emitted
event list. -/
def fwdLoop (connected : Bool) : List RetryRound → Option Bool × List FwdEvent
  | [] => (none, [])
  | r :: rest =>
    if r.writeOk then (some true, [.submit])
    else
      let evs1 : List FwdEvent := if connected then [.disconnect] else []
      let evs2 : List FwdEvent :=
        if r.connectOk then [.connectOk] else [.connectFail, .sleep10]
      if r.terminate then (some false, evs1 ++ evs2)
      else
        let rec2 := fwdLoop r.connectOk rest
        (rec2.1, evs1 ++ evs2 ++ rec2.2)

/-- Scenario A of the spec: an eligible record (integer samples, non-zero
rate) holding `[1, 2, 3]`. -/
def scenarioA : MSRecord := ⟨['B', 'H', 'Z'], 0, 100, 3, 'i', 3, [1, 2, 3]⟩

/-- Scenario B of the spec: a record with float sample type, hence
ineligible for the transform. -/
def floatRec : MSRecord := ⟨['B', 'H', 'Z'], 0, 100, 3, 'f', 3, [1, 2, 3]⟩

/-- A streaming configuration used in concrete runs: statefile present,
flush interval 2, identity scaling, allocation succeeding. -/
def demoCfg : StreamCfg := ⟨true, 2, some 'T', 0, 1, true, 100⟩

/-- A collected packet that is not of data class (`sl_packettype ≠
SLDATA`), e.g. an info/keepalive packet, unpacking fine. -/
def ctrlPkt : SLPacket := ⟨false, true, floatRec⟩

/-- A collected data packet that unpacks successfully to `scenarioA`. -/
def dataPkt : SLPacket := ⟨true, true, scenarioA⟩

/-- A collected data packet on which `msr_unpack` fails. -/
def badPkt : SLPacket := ⟨true, false, floatRec⟩

/-! ## Helper lemmas -/

/-- `rint` of an exact integer is that integer. -/
lemma rintQ_intCast (z : ℤ) : rintQ ((z : ℤ) : ℚ) = z := by
  simp [rintQ, ratFloor_eq_intFloor]

/-- Storing an in-range integer into a C `int` is the identity. -/
lemma wrap32_eq_self {z : ℤ} (h1 : -2 ^ 31 ≤ z) (h2 : z < 2 ^ 31) :
    wrap32 z = z := by
  unfold wrap32
  rw [Int.emod_eq_of_lt (by omega) (by omega)]
  omega

/-- Evaluation of the per-sample map when the affine combination is an
exact in-range integer. -/
lemma scaleSample_eq_of_cast {alpha beta : ℚ} {v z : ℤ}
    (h : alpha + beta * (v : ℚ) = (z : ℚ))
    (h1 : -2 ^ 31 ≤ z) (h2 : z < 2 ^ 31) :
    scaleSample alpha beta v = z := by
  unfold scaleSample
  rw [h, rintQ_intCast, wrap32_eq_self h1 h2]

/-- The identity configuration `alpha = 0`, `beta = 1` maps each in-range
sample to itself. -/
lemma scaleSample_zero_one {v : ℤ} (h1 : -2 ^ 31 ≤ v) (h2 : v < 2 ^ 31) :
    scaleSample 0 1 v = v :=
  scaleSample_eq_of_cast (by ring) h1 h2

/-- After `n ≤ length` iterations, the in-place scaling loop has rewritten
exactly the first `n` entries of the buffer. -/
lemma scaleLoop_aux (a b : ℚ) (buf : List ℤ) :
    ∀ n, n ≤ buf.length →
      (List.range n).foldl
          (fun s k => s.set k (scaleSample a b (s.getD k 0))) buf
        = (buf.take n).map (scaleSample a b) ++ buf.drop n := by
  intro n
  induction n with
  | zero => simp
  | succ n ih =>
    intro h
    have hn : n < buf.length := by omega
    have hlen : ((buf.take n).map (scaleSample a b)).length = n := by
      simp
      omega
    rw [List.range_succ, List.foldl_append, ih (by omega)]
    simp only [List.foldl_cons, List.foldl_nil]
    have hget : ((buf.take n).map (scaleSample a b) ++ buf.drop n).getD n 0
        = buf[n] := by
      rw [List.getD_eq_getElem?_getD,
        List.getElem?_append_right (by omega : ((buf.take n).map (scaleSample a b)).length ≤ n),
        hlen]
      simp [List.getElem?_drop, List.getElem?_eq_getElem hn]
    rw [hget, List.set_append_right _ _ (by omega : ((buf.take n).map (scaleSample a b)).length ≤ n),
      hlen, Nat.sub_self, List.drop_eq_getElem_cons hn, List.set_cons_zero]
    conv_rhs => rw [List.take_succ]
    rw [List.getElem?_eq_getElem hn]
    simp only [Option.toList_some, List.map_append, List.map_cons, List.map_nil,
      List.append_assoc, List.cons_append, List.nil_append]

/-- The in-place indexed scaling loop, run over the whole buffer, is the
per-element map: each sample is rewritten independently of its
position. -/
lemma scaleLoop_eq_map (a b : ℚ) (buf : List ℤ) :
    scaleLoop a b buf.length buf = buf.map (scaleSample a b) := by
  unfold scaleLoop
  rw [scaleLoop_aux a b buf buf.length le_rfl]
  simp

/-- Concatenating the chunked output records restores the sample
sequence: the modelled encoder drops and duplicates nothing. -/
lemma packChunks_flatten (c : ℕ) (l : List ℤ) :
    (packChunks c l).flatten = l := by
  have key : ∀ n (l : List ℤ), l.length ≤ n → (packChunks c l).flatten = l := by
    intro n
    induction n with
    | zero =>
      intro l h
      match l with
      | [] => rw [packChunks]; rfl
      | v :: rest => simp at h
    | succ n ih =>
      intro l h
      match l with
      | [] => rw [packChunks]; rfl
      | v :: rest =>
        rw [packChunks, List.flatten_cons,
          ih _ (by simp only [List.length_drop, List.length_cons]; simp at h; omega),
          List.take_append_drop]
  exact key l.length l le_rfl

/-- An ineligible record short-circuits `scale_record` before any
mutation: result `0`, record untouched, nothing emitted. -/
lemma scale_record_ineligible {orient : Option Char} {alpha beta : ℚ}
    {allocOk : Bool} {chunk : ℕ} {msr : MSRecord}
    (h : msr.samplecnt < 1 ∨ msr.sampletype ≠ 'i' ∨ msr.samprate = 0) :
    scale_record orient alpha beta allocOk chunk msr = ⟨0, msr, []⟩ := by
  unfold scale_record
  rcases h with h | h | h
  · rw [if_pos h]
  · by_cases hc : msr.samplecnt < 1
    · rw [if_pos hc]
    · rw [if_neg hc, if_pos h]
  · by_cases hc : msr.samplecnt < 1
    · rw [if_pos hc]
    · by_cases ht : msr.sampletype ≠ 'i'
      · rw [if_neg hc, if_pos ht]
      · rw [if_neg hc, if_neg ht, if_pos h]

/-- The record `scale_record` leaves behind on an eligible record:
orientation written (when configured), samples rewritten by the scaling
loop, all other fields untouched. -/
lemma scale_record_eligible {orient : Option Char} {alpha beta : ℚ}
    {allocOk : Bool} {chunk : ℕ} {msr : MSRecord}
    (h1 : 1 ≤ msr.samplecnt) (h2 : msr.sampletype = 'i')
    (h3 : msr.samprate ≠ 0) :
    (scale_record orient alpha beta allocOk chunk msr).record =
      { msr with
          channel := match orient with
            | some c => msr.channel.set 2 c
            | none => msr.channel
          datasamples := scaleLoop alpha beta msr.numsamples.toNat
            (match orient with
              | some c => { msr with channel := msr.channel.set 2 c }
              | none => msr).datasamples } := by
  unfold scale_record
  rw [if_neg (by omega), if_neg (by simp [h2]), if_neg (by simp [h3])]
  cases orient <;> cases allocOk <;> rfl

/-- With the allocation oracle succeeding, `scale_record` never returns a
negative result. -/
lemma scale_record_result_nonneg (orient : Option Char) (alpha beta : ℚ)
    (chunk : ℕ) (msr : MSRecord) :
    0 ≤ (scale_record orient alpha beta true chunk msr).result := by
  unfold scale_record
  split
  · simp
  · split
    · simp
    · split
      · simp
      · simp [mst_packgroup]


/-- On eligible records the sample buffer after `scale_record` is the
per-element scaling map of the original buffer. -/
lemma scale_record_datasamples_map {orient : Option Char} {alpha beta : ℚ}
    {allocOk : Bool} {chunk : ℕ} {msr : MSRecord}
    (h1 : 1 ≤ msr.samplecnt) (h2 : msr.sampletype = 'i')
    (h3 : msr.samprate ≠ 0)
    (h4 : msr.numsamples = (msr.datasamples.length : ℤ)) :
    (scale_record orient alpha beta allocOk chunk msr).record.datasamples
      = msr.datasamples.map (scaleSample alpha beta) := by
  have ht : msr.numsamples.toNat = msr.datasamples.length := by
    rw [h4]
    exact Int.toNat_natCast _
  cases orient with
  | none =>
    rw [scale_record_eligible h1 h2 h3]
    show scaleLoop alpha beta msr.numsamples.toNat msr.datasamples = _
    rw [ht, scaleLoop_eq_map]
  | some c =>
    rw [scale_record_eligible h1 h2 h3]
    show scaleLoop alpha beta msr.numsamples.toNat msr.datasamples = _
    rw [ht, scaleLoop_eq_map]

/-- On eligible records with the orientation override configured, the
channel orientation character (index 2) ends up being the override. -/
lemma scale_record_channel2 {c : Char} {alpha beta : ℚ} {allocOk : Bool}
    {chunk : ℕ} {msr : MSRecord}
    (h1 : 1 ≤ msr.samplecnt) (h2 : msr.sampletype = 'i')
    (h3 : msr.samprate ≠ 0) (hlen : 2 < msr.channel.length) :
    (scale_record (some c) alpha beta allocOk chunk msr).record.channel[2]?
      = some c := by
  rw [scale_record_eligible h1 h2 h3]
  show (msr.channel.set 2 c)[2]? = some c
  rw [List.getElem?_set_self]
  simp [hlen]

/-! ## Claim theorems -/

/-- **C1**: for every eligible record (`sampleCount ≥ 1`, integer sample
type, non-zero sample rate) and every config `(alpha, beta)`, the
transform replaces each sample `v` in the buffer, independently of
position, by `rint(alpha + beta * (double) v)` truncated to the integer
sample width with round-half-to-even tie-breaking; in particular samples
`[1,2,3]` with `alpha = 10`, `beta = 2` become `[12,14,16]`. -/
theorem scale_record_scales_each_sample :
    (∀ (orient : Option Char) (alpha beta : ℚ) (allocOk : Bool) (chunk : ℕ)
        (msr : MSRecord),
        1 ≤ msr.samplecnt → msr.sampletype = 'i' → msr.samprate ≠ 0 →
        msr.numsamples = (msr.datasamples.length : ℤ) →
        (scale_record orient alpha beta allocOk chunk msr).record.datasamples
          = msr.datasamples.map (scaleSample alpha beta)) ∧
    (scale_record (some 'T') 10 2 true 100 scenarioA).record.datasamples
      = [12, 14, 16] := by
  constructor
  · intro orient alpha beta allocOk chunk msr h1 h2 h3 h4
    exact scale_record_datasamples_map h1 h2 h3 h4
  · rw [scale_record_datasamples_map (by norm_num [scenarioA])
      (by simp [scenarioA]) (by norm_num [scenarioA]) (by simp [scenarioA])]
    have e1 : scaleSample 10 2 1 = 12 :=
      scaleSample_eq_of_cast (by norm_num) (by norm_num) (by norm_num)
    have e2 : scaleSample 10 2 2 = 14 :=
      scaleSample_eq_of_cast (by norm_num) (by norm_num) (by norm_num)
    have e3 : scaleSample 10 2 3 = 16 :=
      scaleSample_eq_of_cast (by norm_num) (by norm_num) (by norm_num)
    simp [scenarioA, e1, e2, e3]

/-- Witness for C1: the general part applied to the concrete scenario-A
record. -/
theorem scale_record_scales_each_sample_witness :
    (scale_record (some 'T') 10 2 true 100 scenarioA).record.datasamples
      = scenarioA.datasamples.map (scaleSample 10 2) :=
  scale_record_scales_each_sample.1 (some 'T') 10 2 true 100 scenarioA
    (by norm_num [scenarioA]) (by simp [scenarioA]) (by norm_num [scenarioA])
    (by simp [scenarioA])

/-- **C2**: a record with `sampleCount < 1`, or non-integer sample type,
or zero sample rate makes the transform return 0 ("0 samples processed")
and leaves the record entirely unmutated — sample buffer byte-for-byte
unchanged and the orientation character untouched (the whole record is
returned unchanged, and nothing is emitted). -/
theorem scale_record_ineligible_noop :
    ∀ (orient : Option Char) (alpha beta : ℚ) (allocOk : Bool) (chunk : ℕ)
      (msr : MSRecord),
      msr.samplecnt < 1 ∨ msr.sampletype ≠ 'i' ∨ msr.samprate = 0 →
      (scale_record orient alpha beta allocOk chunk msr).result = 0 ∧
      (scale_record orient alpha beta allocOk chunk msr).record = msr ∧
      (scale_record orient alpha beta allocOk chunk msr).emitted = [] := by
  intro orient alpha beta allocOk chunk msr h
  rw [scale_record_ineligible h]
  exact ⟨rfl, rfl, rfl⟩

/-- Witness for C2: the float-typed record is returned untouched with
result 0. -/
theorem scale_record_ineligible_noop_witness :
    (scale_record (some 'T') 10 2 true 100 floatRec).result = 0 ∧
    (scale_record (some 'T') 10 2 true 100 floatRec).record = floatRec ∧
    (scale_record (some 'T') 10 2 true 100 floatRec).emitted = [] :=
  scale_record_ineligible_noop (some 'T') 10 2 true 100 floatRec
    (Or.inr (Or.inl (by decide)))

/-- **C7**: for every record and every config, the transform never
changes `sampleCount` or `sampleType` (nor the rate, start time or
unpacked-sample count); the only fields it may mutate are the sample
buffer contents and the orientation character — every channel position
other than index 2 is preserved. -/
theorem scale_record_preserves_frame :
    ∀ (orient : Option Char) (alpha beta : ℚ) (allocOk : Bool) (chunk : ℕ)
      (msr : MSRecord),
      (scale_record orient alpha beta allocOk chunk msr).record.samplecnt
        = msr.samplecnt ∧
      (scale_record orient alpha beta allocOk chunk msr).record.sampletype
        = msr.sampletype ∧
      (scale_record orient alpha beta allocOk chunk msr).record.samprate
        = msr.samprate ∧
      (scale_record orient alpha beta allocOk chunk msr).record.starttime
        = msr.starttime ∧
      (scale_record orient alpha beta allocOk chunk msr).record.numsamples
        = msr.numsamples ∧
      ∀ i : ℕ, i ≠ 2 →
        (scale_record orient alpha beta allocOk chunk msr).record.channel[i]?
          = msr.channel[i]? := by
  intro orient alpha beta allocOk chunk msr
  by_cases hel : msr.samplecnt < 1 ∨ msr.sampletype ≠ 'i' ∨ msr.samprate = 0
  · rw [scale_record_ineligible hel]
    exact ⟨rfl, rfl, rfl, rfl, rfl, fun i _ => rfl⟩
  · push_neg at hel
    obtain ⟨h1, h2, h3⟩ := hel
    rw [scale_record_eligible (by omega) h2 h3]
    refine ⟨rfl, rfl, rfl, rfl, rfl, fun i hi => ?_⟩
    cases orient with
    | none => rfl
    | some c =>
      show (msr.channel.set 2 c)[i]? = msr.channel[i]?
      exact List.getElem?_set_ne (fun h => hi h.symm)

/-- Witness for C7: frame preservation at the concrete scenario-A record,
checking a non-orientation channel position. -/
theorem scale_record_preserves_frame_witness :
    (scale_record (some 'T') 10 2 true 100 scenarioA).record.samplecnt
      = scenarioA.samplecnt ∧
    (scale_record (some 'T') 10 2 true 100 scenarioA).record.sampletype
      = scenarioA.sampletype ∧
    (scale_record (some 'T') 10 2 true 100 scenarioA).record.channel[0]?
      = scenarioA.channel[0]? :=
  have h := scale_record_preserves_frame (some 'T') 10 2 true 100 scenarioA
  ⟨h.1, h.2.1, h.2.2.2.2.2 0 (by decide)⟩

/-- **C8**: when the orientation override is configured, after
transforming any eligible record the channel orientation character (the
fixed third position of the channel code) equals the override, whatever
it was before. -/
theorem scale_record_orientation_override :
    ∀ (c : Char) (alpha beta : ℚ) (allocOk : Bool) (chunk : ℕ)
      (msr : MSRecord),
      1 ≤ msr.samplecnt → msr.sampletype = 'i' → msr.samprate ≠ 0 →
      2 < msr.channel.length →
      (scale_record (some c) alpha beta allocOk chunk msr).record.channel[2]?
        = some c := by
  intro c alpha beta allocOk chunk msr h1 h2 h3 hlen
  exact scale_record_channel2 h1 h2 h3 hlen

/-- Witness for C8: the orientation of scenario A (originally `Z`) is
overwritten with `T`. -/
theorem scale_record_orientation_override_witness :
    (scale_record (some 'T') 10 2 true 100 scenarioA).record.channel[2]?
      = some 'T' :=
  scale_record_orientation_override 'T' 10 2 true 100 scenarioA
    (by norm_num [scenarioA]) (by simp [scenarioA]) (by norm_num [scenarioA])
    (by simp [scenarioA])

/-- **C9**: with `alpha = 0` and `beta = 1` the transform fixes every
(in-range) sample value of an eligible record — the per-sample map is the
identity on the integer sample width — while the orientation overwrite
still applies when configured. -/
theorem scale_record_identity_config :
    ∀ (orient : Option Char) (allocOk : Bool) (chunk : ℕ) (msr : MSRecord),
      1 ≤ msr.samplecnt → msr.sampletype = 'i' → msr.samprate ≠ 0 →
      msr.numsamples = (msr.datasamples.length : ℤ) →
      (∀ v ∈ msr.datasamples, -2 ^ 31 ≤ v ∧ v < 2 ^ 31) →
      (scale_record orient 0 1 allocOk chunk msr).record.datasamples
        = msr.datasamples ∧
      (∀ c : Char, orient = some c → 2 < msr.channel.length →
        (scale_record orient 0 1 allocOk chunk msr).record.channel[2]?
          = some c) := by
  intro orient allocOk chunk msr h1 h2 h3 h4 hrange
  constructor
  · rw [scale_record_datasamples_map h1 h2 h3 h4]
    have : ∀ v ∈ msr.datasamples, scaleSample 0 1 v = id v := by
      intro v hv
      exact scaleSample_zero_one (hrange v hv).1 (hrange v hv).2
    rw [List.map_congr_left this, List.map_id]
  · intro c hc hlen
    subst hc
    exact scale_record_channel2 h1 h2 h3 hlen

/-- Witness for C9: identity scaling of scenario A returns its samples
unchanged while the orientation override still lands. -/
theorem scale_record_identity_config_witness :
    (scale_record (some 'T') 0 1 true 100 scenarioA).record.datasamples
      = scenarioA.datasamples ∧
    (scale_record (some 'T') 0 1 true 100 scenarioA).record.channel[2]?
      = some 'T' :=
  have h := scale_record_identity_config (some 'T') true 100 scenarioA
    (by norm_num [scenarioA]) (by simp [scenarioA]) (by norm_num [scenarioA])
    (by simp [scenarioA]) (by norm_num [scenarioA])
  ⟨h.1, h.2 'T' rfl (by simp [scenarioA])⟩

/-- On an eligible record with the allocation failing, `scale_record`
returns the failure sentinel and emits nothing. -/
lemma scale_record_alloc_false {orient : Option Char} {alpha beta : ℚ}
    {chunk : ℕ} {msr : MSRecord}
    (h1 : 1 ≤ msr.samplecnt) (h2 : msr.sampletype = 'i')
    (h3 : msr.samprate ≠ 0) :
    (scale_record orient alpha beta false chunk msr).result = -1 ∧
    (scale_record orient alpha beta false chunk msr).emitted = [] := by
  unfold scale_record
  rw [if_neg (by omega), if_neg (by simp [h2]), if_neg (by simp [h3])]
  cases orient <;> exact ⟨rfl, rfl⟩

/-- On an eligible record with the allocation succeeding, `scale_record`
returns the packed-sample count of the scaled buffer and emits its
chunks. -/
lemma scale_record_alloc_true {orient : Option Char} {alpha beta : ℚ}
    {chunk : ℕ} {msr : MSRecord}
    (h1 : 1 ≤ msr.samplecnt) (h2 : msr.sampletype = 'i')
    (h3 : msr.samprate ≠ 0) :
    (scale_record orient alpha beta true chunk msr).result
      = (((scale_record orient alpha beta true chunk msr).record.datasamples).length : ℤ) ∧
    (scale_record orient alpha beta true chunk msr).emitted
      = packChunks chunk ((scale_record orient alpha beta true chunk msr).record.datasamples) := by
  unfold scale_record
  rw [if_neg (by omega), if_neg (by simp [h2]), if_neg (by simp [h3])]
  cases orient <;> exact ⟨rfl, rfl⟩

/-- **C4**: on the repack stage (reached exactly by eligible records) the
result is the number of samples packed into the emitted output records,
and the failure sentinel `-1` is returned if and only if the initial
trace-group allocation fails — no other condition produces it. -/
theorem scale_record_failure_iff_alloc :
    ∀ (orient : Option Char) (alpha beta : ℚ) (allocOk : Bool) (chunk : ℕ)
      (msr : MSRecord),
      1 ≤ msr.samplecnt → msr.sampletype = 'i' → msr.samprate ≠ 0 →
      ((scale_record orient alpha beta allocOk chunk msr).result = -1 ↔
        allocOk = false) ∧
      (allocOk = true →
        (scale_record orient alpha beta allocOk chunk msr).result
          = (((scale_record orient alpha beta allocOk chunk msr).emitted.flatten).length : ℤ)) := by
  intro orient alpha beta allocOk chunk msr h1 h2 h3
  cases allocOk with
  | false =>
    refine ⟨⟨fun _ => rfl, fun _ => (scale_record_alloc_false h1 h2 h3).1⟩, ?_⟩
    intro h
    cases h
  | true =>
    obtain ⟨hres, hemit⟩ :=
      @scale_record_alloc_true orient alpha beta chunk msr h1 h2 h3
    constructor
    · constructor
      · intro h
        rw [hres] at h
        omega
      · intro h
        cases h
    · intro _
      rw [hres, hemit, packChunks_flatten]

/-- Witness for C4: scenario A with the allocation succeeding — result 3,
which is the length of the flattened emitted output. -/
theorem scale_record_failure_iff_alloc_witness :
    ¬ (scale_record (some 'T') 10 2 true 100 scenarioA).result = -1 ∧
    (scale_record (some 'T') 10 2 true 100 scenarioA).result
      = (((scale_record (some 'T') 10 2 true 100 scenarioA).emitted.flatten).length : ℤ) :=
  have h := scale_record_failure_iff_alloc (some 'T') 10 2 true 100 scenarioA
    (by norm_num [scenarioA]) (by simp [scenarioA]) (by norm_num [scenarioA])
  ⟨fun hc => Bool.noConfusion (h.1.mp hc), h.2 rfl⟩

/-- Counterexample to **C3**: in the batch variant a float-typed record is
NOT passed through — the run emits no output records at all for it, so
the output samples are not byte-identical to the input samples. -/
theorem batch_float_record_not_passed_through :
    batchRun (some 'T') 0 1 true 100 [floatRec] = [] ∧
    (batchRun (some 'T') 0 1 true 100 [floatRec]).flatten ≠ floatRec.datasamples := by
  decide

/-- **C3 (amended)**: in the batch variant a record that is ineligible
for the transform is not repacked and not emitted: `scale_record`
returns 0 before the repack stage, the record is left unchanged, and the
batch loop continues with the remaining records, contributing no output
for the ineligible one. -/
theorem batch_ineligible_skipped :
    ∀ (orient : Option Char) (alpha beta : ℚ) (allocOk : Bool) (chunk : ℕ)
      (msr : MSRecord) (rest : List MSRecord),
      msr.samplecnt < 1 ∨ msr.sampletype ≠ 'i' ∨ msr.samprate = 0 →
      (scale_record orient alpha beta allocOk chunk msr).emitted = [] ∧
      (scale_record orient alpha beta allocOk chunk msr).record = msr ∧
      batchRun orient alpha beta allocOk chunk (msr :: rest)
        = batchRun orient alpha beta allocOk chunk rest := by
  intro orient alpha beta allocOk chunk msr rest h
  refine ⟨?_, ?_, ?_⟩
  · rw [scale_record_ineligible h]
  · rw [scale_record_ineligible h]
  · show (let out := scale_record orient alpha beta allocOk chunk msr
      if out.result < 0 then out.emitted
      else out.emitted ++ batchRun orient alpha beta allocOk chunk rest) = _
    rw [scale_record_ineligible h]
    simp

/-- Witness for the amended C3: the float-typed record contributes
nothing to the batch output. -/
theorem batch_ineligible_skipped_witness :
    (scale_record (some 'T') 0 1 true 100 floatRec).emitted = [] ∧
    (scale_record (some 'T') 0 1 true 100 floatRec).record = floatRec ∧
    batchRun (some 'T') 0 1 true 100 [floatRec]
      = batchRun (some 'T') 0 1 true 100 [] :=
  batch_ineligible_skipped (some 'T') 0 1 true 100 floatRec []
    (Or.inr (Or.inl (by decide)))

/-- If the forwarding loop ends with the record abandoned, no submission
ever succeeded: the record was never forwarded. -/
lemma fwdLoop_abandoned_no_submit :
    ∀ (rounds : List RetryRound) (connected : Bool),
      (fwdLoop connected rounds).1 = some false →
      (fwdLoop connected rounds).2.count FwdEvent.submit = 0 := by
  intro rounds
  induction rounds with
  | nil =>
    intro connected h
    simp [fwdLoop] at h
  | cons r rest ih =>
    intro connected h
    by_cases hw : r.writeOk
    · simp [fwdLoop, hw] at h
    · by_cases ht : r.terminate
      · simp only [fwdLoop, hw, ht, if_false, if_true, Bool.false_eq_true]
        by_cases hcn : connected <;> by_cases hc : r.connectOk <;>
          simp [hcn, hc, List.count_append, List.count_cons]
      · have h' : (fwdLoop r.connectOk rest).1 = some false := by
          simpa [fwdLoop, hw, ht] using h
        have hrest := ih r.connectOk h'
        by_cases hcn : connected <;> by_cases hc : r.connectOk <;>
          simp [hc] at hrest <;>
          simp [fwdLoop, hw, ht, hcn, hc, List.count_append, List.count_cons, hrest]

/-- If the forwarding loop ends with the record abandoned, some failing
round observed the terminate flag. -/
lemma fwdLoop_abandoned_terminate :
    ∀ (rounds : List RetryRound) (connected : Bool),
      (fwdLoop connected rounds).1 = some false →
      ∃ r ∈ rounds, r.writeOk = false ∧ r.terminate = true := by
  intro rounds
  induction rounds with
  | nil =>
    intro connected h
    simp [fwdLoop] at h
  | cons r rest ih =>
    intro connected h
    by_cases hw : r.writeOk
    · simp [fwdLoop, hw] at h
    · by_cases ht : r.terminate
      · exact ⟨r, by simp, by simpa using hw, ht⟩
      · have h' : (fwdLoop r.connectOk rest).1 = some false := by
          simpa [fwdLoop, hw, ht] using h
        obtain ⟨x, hx, hxw, hxt⟩ := ih r.connectOk h'
        exact ⟨x, by simp [hx], hxw, hxt⟩

/-- If the forwarding loop ends with the record forwarded, exactly one
submission succeeded: no duplicate delivery. -/
lemma fwdLoop_delivered_once :
    ∀ (rounds : List RetryRound) (connected : Bool),
      (fwdLoop connected rounds).1 = some true →
      (fwdLoop connected rounds).2.count FwdEvent.submit = 1 := by
  intro rounds
  induction rounds with
  | nil =>
    intro connected h
    simp [fwdLoop] at h
  | cons r rest ih =>
    intro connected h
    by_cases hw : r.writeOk
    · simp [fwdLoop, hw, List.count_cons]
    · by_cases ht : r.terminate
      · exfalso
        by_cases hcn : connected <;> by_cases hc : r.connectOk <;>
          simp [fwdLoop, hw, ht, hcn, hc] at h
      · have h' : (fwdLoop r.connectOk rest).1 = some true := by
          simpa [fwdLoop, hw, ht] using h
        have hrest := ih r.connectOk h'
        by_cases hcn : connected <;> by_cases hc : r.connectOk <;>
          simp [hc] at hrest <;>
          simp [fwdLoop, hw, ht, hcn, hc, List.count_append, List.count_cons, hrest]

/-- The loop sleeps its fixed 10-second backoff exactly as many times as
a reconnect attempt fails. -/
lemma fwdLoop_sleep_iff_connect_fail :
    ∀ (rounds : List RetryRound) (connected : Bool),
      (fwdLoop connected rounds).2.count FwdEvent.sleep10
        = (fwdLoop connected rounds).2.count FwdEvent.connectFail := by
  intro rounds
  induction rounds with
  | nil =>
    intro connected
    simp [fwdLoop]
  | cons r rest ih =>
    intro connected
    by_cases hw : r.writeOk
    · simp [fwdLoop, hw, List.count_cons]
    · have hrest := ih r.connectOk
      by_cases ht : r.terminate <;>
        by_cases hcn : connected <;> by_cases hc : r.connectOk <;>
          simp [hc] at hrest <;>
          simp [fwdLoop, hw, ht, hcn, hc, List.count_append, List.count_cons, hrest]

/-- **C6**: on submission failure the forwarding sink retries —
disconnect when connected, reconnect, a fixed backoff sleep exactly when
the reconnect fails — until the submission succeeds or the shutdown flag
is observed; a shutdown observed during the loop abandons the current
record (it is never forwarded) and exits the loop, and a successful exit
forwarded the record exactly once. -/
theorem forward_retry_loop :
    ∀ (connected : Bool) (rounds : List RetryRound),
      ((fwdLoop connected rounds).1 = some false →
        (fwdLoop connected rounds).2.count FwdEvent.submit = 0 ∧
        ∃ r ∈ rounds, r.writeOk = false ∧ r.terminate = true) ∧
      ((fwdLoop connected rounds).1 = some true →
        (fwdLoop connected rounds).2.count FwdEvent.submit = 1) ∧
      (fwdLoop connected rounds).2.count FwdEvent.sleep10
        = (fwdLoop connected rounds).2.count FwdEvent.connectFail := by
  intro connected rounds
  exact ⟨fun h => ⟨fwdLoop_abandoned_no_submit rounds connected h,
      fwdLoop_abandoned_terminate rounds connected h⟩,
    fun h => fwdLoop_delivered_once rounds connected h,
    fwdLoop_sleep_iff_connect_fail rounds connected⟩

/-- Witness for C6: a concrete trace — first round fails to write and to
reconnect while the terminate flag is raised: the record is abandoned,
never submitted, after one backoff sleep. -/
theorem forward_retry_loop_witness :
    (fwdLoop true [⟨false, false, true⟩]).1 = some false ∧
    (fwdLoop true [⟨false, false, true⟩]).2.count FwdEvent.submit = 0 ∧
    (fwdLoop true [⟨false, false, true⟩]).2.count FwdEvent.sleep10
      = (fwdLoop true [⟨false, false, true⟩]).2.count FwdEvent.connectFail :=
  have h := forward_retry_loop true [⟨false, false, true⟩]
  ⟨by decide, (h.1 (by decide)).1, h.2.2⟩

/-- When the packet unpacks and allocation succeeds, the loop body always
continues: the record pointer is freed back to NULL and the checkpoint
logic runs, whatever the packet class or record eligibility. -/
lemma loopBody_ok_shape {cfg : StreamCfg} {st : LoopState} {pkt : SLPacket}
    (hup : pkt.unpackOk = true) (hA : cfg.allocOk = true) :
    ∃ E : List (List ℤ), loopBody cfg st pkt = StepResult.ok
      { msr := none
        packetcnt := (checkpointStep cfg.statefile cfg.stateint st.packetcnt).1
        savesDuring := st.savesDuring
          + (if (checkpointStep cfg.statefile cfg.stateint st.packetcnt).2 then 1 else 0)
        emitted := st.emitted ++ E } := by
  by_cases hd : pkt.isData
  · have hres : ¬ (scale_record cfg.orient cfg.alpha cfg.beta cfg.allocOk
        cfg.chunk pkt.record).result < 0 := by
      rw [hA]
      have := scale_record_result_nonneg cfg.orient cfg.alpha cfg.beta
        cfg.chunk pkt.record
      omega
    refine ⟨(scale_record cfg.orient cfg.alpha cfg.beta cfg.allocOk
        cfg.chunk pkt.record).emitted, ?_⟩
    simp only [loopBody, hup, hd, if_true, ite_true]
    rw [if_neg hres]
  · refine ⟨[], ?_⟩
    simp only [loopBody, hup, hd, Bool.false_eq_true, if_false, ite_true]
    simp

/-- Running the collection loop from a counter value `c ∈ [0, N)` over
packets that all unpack, with allocation succeeding: the run ends
normally, the checkpoint is saved once per `N` collected packets, and the
counter ends at the residue. -/
lemma streamRun_counts (cfg : StreamCfg) (hsf : cfg.statefile = true)
    (hN : 1 ≤ cfg.stateint) (hA : cfg.allocOk = true) :
    ∀ (pkts : List SLPacket) (st : LoopState),
      (∀ p ∈ pkts, p.unpackOk = true) →
      0 ≤ st.packetcnt → st.packetcnt < cfg.stateint →
      (streamRun cfg st pkts).2 = RunEnd.normal ∧
      ((streamRun cfg st pkts).1.savesDuring : ℤ)
        = (st.savesDuring : ℤ) + (st.packetcnt + pkts.length) / cfg.stateint ∧
      (streamRun cfg st pkts).1.packetcnt
        = (st.packetcnt + pkts.length) % cfg.stateint := by
  intro pkts
  induction pkts with
  | nil =>
    intro st hp h0 hlt
    refine ⟨rfl, ?_, ?_⟩
    · show ((st.savesDuring : ℤ)) = _
      rw [List.length_nil]
      push_cast
      rw [add_zero, Int.ediv_eq_zero_of_lt h0 hlt, add_zero]
    · show st.packetcnt = _
      rw [List.length_nil]
      push_cast
      rw [add_zero, Int.emod_eq_of_lt h0 hlt]
  | cons pkt rest ih =>
    intro st hp h0 hlt
    obtain ⟨E, hE⟩ := loopBody_ok_shape (hp pkt (by simp)) hA
    have hckeq : checkpointStep cfg.statefile cfg.stateint st.packetcnt
        = if st.packetcnt + 1 ≥ cfg.stateint then ((0 : ℤ), true)
          else (st.packetcnt + 1, false) := by
      unfold checkpointStep
      rw [if_pos ⟨hsf, by omega⟩]
    have hprest : ∀ p ∈ rest, p.unpackOk = true :=
      fun p hp' => hp p (List.mem_cons_of_mem _ hp')
    by_cases hb : st.packetcnt + 1 ≥ cfg.stateint
    · have hck2 : checkpointStep cfg.statefile cfg.stateint st.packetcnt
          = ((0 : ℤ), true) := by rw [hckeq, if_pos hb]
      have hE2 : loopBody cfg st pkt = StepResult.ok
          ⟨none, 0, st.savesDuring + 1, st.emitted ++ E⟩ := by
        rw [hE, hck2]
        norm_num
      obtain ⟨hnorm, hsaves, hcnt⟩ := ih
        ⟨none, 0, st.savesDuring + 1, st.emitted ++ E⟩ hprest le_rfl
        (by show (0 : ℤ) < cfg.stateint; omega)
      have hrun : streamRun cfg st (pkt :: rest)
          = streamRun cfg ⟨none, 0, st.savesDuring + 1, st.emitted ++ E⟩ rest := by
        simp only [streamRun, hE2]
      refine ⟨by rw [hrun]; exact hnorm, ?_, ?_⟩
      · rw [hrun, hsaves]
        push_cast [List.length_cons]
        rw [show st.packetcnt + ((rest.length : ℤ) + 1)
            = (rest.length : ℤ) + 1 * cfg.stateint by omega,
          Int.add_mul_ediv_right _ _ (by omega : cfg.stateint ≠ 0)]
        ring_nf
      · rw [hrun, hcnt]
        push_cast [List.length_cons]
        rw [show st.packetcnt + ((rest.length : ℤ) + 1)
            = (rest.length : ℤ) + 1 * cfg.stateint by omega,
          Int.add_mul_emod_self, zero_add]
    · have hck2 : checkpointStep cfg.statefile cfg.stateint st.packetcnt
          = (st.packetcnt + 1, false) := by rw [hckeq, if_neg hb]
      have hE2 : loopBody cfg st pkt = StepResult.ok
          ⟨none, st.packetcnt + 1, st.savesDuring, st.emitted ++ E⟩ := by
        rw [hE, hck2]
        norm_num
      obtain ⟨hnorm, hsaves, hcnt⟩ := ih
        ⟨none, st.packetcnt + 1, st.savesDuring, st.emitted ++ E⟩
        hprest (by show (0 : ℤ) ≤ st.packetcnt + 1; omega)
        (by show st.packetcnt + 1 < cfg.stateint; omega)
      have hrun : streamRun cfg st (pkt :: rest)
          = streamRun cfg ⟨none, st.packetcnt + 1, st.savesDuring, st.emitted ++ E⟩ rest := by
        simp only [streamRun, hE2]
      refine ⟨by rw [hrun]; exact hnorm, ?_, ?_⟩
      · rw [hrun, hsaves]
        push_cast [List.length_cons]
        ring_nf
      · rw [hrun, hcnt]
        push_cast [List.length_cons]
        ring_nf

/-- Counterexample to **C5**: packets not classified as data DO advance
the interval counter.  With flush interval 2, collecting two non-data
(control) packets — zero data-class records processed — already persists
the checkpoint once, where the claim predicts zero persists. -/
theorem checkpoint_advanced_by_non_data_packets :
    ctrlPkt.isData = false ∧
    (streamRun demoCfg initState [ctrlPkt, ctrlPkt]).1.savesDuring = 1 := by
  decide

/-- **C5 (amended)**: with a checkpoint file configured and flush
interval `N ≥ 1`, the checkpoint is persisted exactly once per `N`
collected packets — whatever their class, since every collected packet
advances the counter — i.e. `⌊collected/N⌋` times during the run, plus
exactly one save at shutdown when the terminate flag is set.  (With
interval 2 and five collected data records: twice during the run, plus
once at clean shutdown.) -/
theorem checkpoint_saves_per_collected_packet :
    ∀ (cfg : StreamCfg) (pkts : List SLPacket) (terminate : Bool),
      cfg.statefile = true → 1 ≤ cfg.stateint → cfg.allocOk = true →
      (∀ p ∈ pkts, p.unpackOk = true) →
      (streamRun cfg initState pkts).2 = RunEnd.normal ∧
      ((streamRun cfg initState pkts).1.savesDuring : ℤ)
        = (pkts.length : ℤ) / cfg.stateint ∧
      shutdownSaves cfg.statefile terminate = (if terminate then 1 else 0) := by
  intro cfg pkts terminate hsf hN hA hp
  obtain ⟨h1, h2, h3⟩ := streamRun_counts cfg hsf hN hA pkts initState hp
    le_rfl (by show (0 : ℤ) < cfg.stateint; omega)
  refine ⟨h1, ?_, ?_⟩
  · rw [h2]
    show ((initState.savesDuring : ℕ) : ℤ) + _ = _
    norm_num [initState]
  · unfold shutdownSaves
    rw [hsf]
    cases terminate <;> simp

/-- Witness for the amended C5: five collected data packets with interval
2 — saved `⌊5/2⌋ = 2` times during the run, once more at shutdown. -/
theorem checkpoint_saves_per_collected_packet_witness :
    ((streamRun demoCfg initState
        [dataPkt, dataPkt, dataPkt, dataPkt, dataPkt]).1.savesDuring : ℤ)
      = (([dataPkt, dataPkt, dataPkt, dataPkt, dataPkt].length : ℕ) : ℤ)
          / demoCfg.stateint ∧
    shutdownSaves demoCfg.statefile true = 1 :=
  have h := checkpoint_saves_per_collected_packet demoCfg
    [dataPkt, dataPkt, dataPkt, dataPkt, dataPkt] true rfl (by decide) rfl
    (by decide)
  ⟨h.2.1, by simpa using h.2.2⟩

/-- **C10 (amended)**: when `msr_unpack` fails on a collected data
packet, the loop does not skip the packet — `scale_record` is still
invoked on whatever the record pointer holds, and it dereferences that
pointer unconditionally.  But the pointer is NULL at the head of *every*
iteration, not only the first: `msr_free` resets it at the end of each
completed iteration, so an unpack failure on a data packet always
dereferences NULL (a stale record is never re-scaled). -/
theorem unpack_failure_null_deref :
    ∀ (cfg : StreamCfg) (st : LoopState) (pkt : SLPacket),
      (st.msr = none → pkt.unpackOk = false → pkt.isData = true →
        loopBody cfg st pkt = StepResult.nullDeref st) ∧
      (∀ st2 : LoopState,
        (loopBody cfg st pkt = StepResult.ok st2 → st2.msr = none) ∧
        (loopBody cfg st pkt = StepResult.brk st2 → st2.msr = none)) := by
  intro cfg st pkt
  constructor
  · intro hm hu hd
    simp [loopBody, hu, hd, hm]
  · intro st2
    constructor
    · intro h
      unfold loopBody at h
      by_cases hu : pkt.unpackOk <;> by_cases hd : pkt.isData <;>
        simp only [hu, hd, ite_true, ite_false, Bool.false_eq_true, if_false,
          if_true] at h
      · split at h
        · exact absurd h (by simp)
        · rw [StepResult.ok.injEq] at h
          rw [← h]
      · rw [StepResult.ok.injEq] at h
        rw [← h]
      · cases hsm : st.msr with
        | none =>
          rw [hsm] at h
          exact StepResult.noConfusion h
        | some m =>
          rw [hsm] at h
          split at h
          · exact StepResult.noConfusion h
          · split at h
            · exact StepResult.noConfusion h
            · rw [StepResult.ok.injEq] at h
              rw [← h]
      · rw [StepResult.ok.injEq] at h
        rw [← h]
    · intro h
      unfold loopBody at h
      by_cases hu : pkt.unpackOk <;> by_cases hd : pkt.isData <;>
        simp only [hu, hd, ite_true, ite_false, Bool.false_eq_true, if_false,
          if_true] at h
      · split at h
        · rw [StepResult.brk.injEq] at h
          rw [← h]
        · exact StepResult.noConfusion h
      · exact StepResult.noConfusion h
      · cases hsm : st.msr with
        | none =>
          rw [hsm] at h
          exact StepResult.noConfusion h
        | some m =>
          rw [hsm] at h
          split at h
          · exact StepResult.noConfusion h
          · split at h
            · rw [StepResult.brk.injEq] at h
              rw [← h]
            · exact StepResult.noConfusion h
      · exact StepResult.noConfusion h

/-- Witness for the amended C10: the very first iteration, with the NULL
initial pointer and a failing unpack on a data packet, dereferences
NULL. -/
theorem unpack_failure_null_deref_witness :
    loopBody demoCfg initState badPkt = StepResult.nullDeref initState :=
  (unpack_failure_null_deref demoCfg initState badPkt).1 rfl rfl rfl

/-- Counterexample to **C10** as stated: in a run where the first data
packet is processed normally and `msr_unpack` fails on the second data
packet, the second iteration does NOT re-scale and re-emit the
previously-unpacked record (the claim's "stale record" branch): the
pointer was reset to NULL by `msr_free`, so the run crashes on a NULL
dereference, with the first record's output emitted exactly once. -/
theorem stale_record_not_rescaled :
    (streamRun demoCfg initState [dataPkt, badPkt]).2 = RunEnd.crashed ∧
    (streamRun demoCfg initState [dataPkt, badPkt]).1.emitted = [[1, 2, 3]] := by
  have e1 : scaleSample 0 1 1 = 1 := scaleSample_zero_one (by norm_num) (by norm_num)
  have e2 : scaleSample 0 1 2 = 2 := scaleSample_zero_one (by norm_num) (by norm_num)
  have e3 : scaleSample 0 1 3 = 3 := scaleSample_zero_one (by norm_num) (by norm_num)
  have hds : (scale_record (some 'T') 0 1 true 100 scenarioA).record.datasamples
      = [1, 2, 3] := by
    rw [scale_record_datasamples_map (by norm_num [scenarioA]) (by simp [scenarioA])
      (by norm_num [scenarioA]) (by simp [scenarioA])]
    simp [scenarioA, e1, e2, e3]
  have hpk : packChunks 100 ([1, 2, 3] : List ℤ) = [[1, 2, 3]] := by
    rw [packChunks,
      show (([1, 2, 3] : List ℤ).take (100 + 1)) = [1, 2, 3] from rfl,
      show (([1, 2, 3] : List ℤ).drop (100 + 1)) = [] from rfl,
      packChunks]
  have hres : (scale_record (some 'T') 0 1 true 100 scenarioA).result = 3 := by
    rw [(scale_record_alloc_true (by norm_num [scenarioA]) (by simp [scenarioA])
      (by norm_num [scenarioA])).1, hds]
    norm_num
  have hemt : (scale_record (some 'T') 0 1 true 100 scenarioA).emitted
      = [[1, 2, 3]] := by
    rw [(scale_record_alloc_true (by norm_num [scenarioA]) (by simp [scenarioA])
      (by norm_num [scenarioA])).2, hds, hpk]
  have hl1 : loopBody demoCfg initState dataPkt
      = StepResult.ok ⟨none, 1, 0, [[1, 2, 3]]⟩ := by
    have hnneg : ¬ (scale_record (some 'T') 0 1 true 100 scenarioA).result < 0 := by
      rw [hres]
      norm_num
    simp only [loopBody, demoCfg, dataPkt, initState, ite_true, if_true]
    rw [if_neg hnneg]
    simp [checkpointStep, hemt]
  have hl2 : loopBody demoCfg ⟨none, 1, 0, [[1, 2, 3]]⟩ badPkt
      = StepResult.nullDeref ⟨none, 1, 0, [[1, 2, 3]]⟩ :=
    (unpack_failure_null_deref demoCfg ⟨none, 1, 0, [[1, 2, 3]]⟩ badPkt).1 rfl rfl rfl
  have hrun : streamRun demoCfg initState [dataPkt, badPkt]
      = (⟨none, 1, 0, [[1, 2, 3]]⟩, RunEnd.crashed) := by
    simp only [streamRun, hl1, hl2]
  rw [hrun]
  exact ⟨rfl, rfl⟩
